import Mathlib

set_option autoImplicit false

namespace MyClove

/- ===================================================================
   Streaming validation pipeline
   (src/app/processors/claude_ai/streaming_response_processor.py)
   =================================================================== -/

/-- A tagged upstream streaming event. In the source, events are wrappers
whose `.root` is an `ErrorEvent` (carrying `.error.type` and
`.error.message`, flattened here into the two string fields), a
`ContentBlockDeltaEvent`, or any other event type (opaque passthrough,
represented by its tag). -/
inductive StreamingEvent where
  | errorEvent (errorType errorMessage : String)
  | contentBlockDelta (payload : String)
  | other (tag : String)
deriving DecidableEq, Repr

/-- True for events that are neither `ErrorEvent` nor `ContentBlockDeltaEvent`. -/
def StreamingEvent.isOther : StreamingEvent → Bool
  | .other _ => true
  | _ => false

/-- `ClaudeStreamingError(error_type, error_message)` from `app/core/exceptions`. -/
structure ClaudeStreamingError where
  errorType : String
  errorMessage : String
deriving DecidableEq, Repr

/-- State of `ValidatedEventStream`: the remaining upstream iterator
(`event_stream`, modelled as the list of events it will still yield),
the internal `buffer`, the `validated` and `exhausted` flags, and an
instrumentation counter `pulls` counting how many times the upstream
iterator has been pulled (each `async for` step / `__anext__` call). -/
structure ValidatedEventStream where
  eventStream : List StreamingEvent
  buffer : List StreamingEvent
  validated : Bool
  exhausted : Bool
  pulls : Nat
deriving DecidableEq, Repr

/-- `ValidatedEventStream.__init__(event_stream)`. -/
def ValidatedEventStream.init (events : List StreamingEvent) : ValidatedEventStream :=
  ⟨events, [], false, false, 0⟩

/-- `ValidatedEventStream.validate`: pull events one at a time, appending each
to the buffer; raise `ClaudeStreamingError` (returned as `some err`, with the
state as mutated so far) on an `ErrorEvent`; mark validated and stop on a
`ContentBlockDeltaEvent`; mark validated and exhausted if the stream ends. -/
def ValidatedEventStream.validate :
    ValidatedEventStream → ValidatedEventStream × Option ClaudeStreamingError
  | ⟨[], buf, _v, _ex, p⟩ => (⟨[], buf, true, true, p⟩, none)
  | ⟨e :: rest, buf, v, ex, p⟩ =>
    match e with
    | .errorEvent t msg =>
        (⟨rest, buf ++ [.errorEvent t msg], v, ex, p + 1⟩, some ⟨t, msg⟩)
    | .contentBlockDelta d =>
        (⟨rest, buf ++ [.contentBlockDelta d], true, ex, p + 1⟩, none)
    | .other tag =>
        ValidatedEventStream.validate ⟨rest, buf ++ [.other tag], v, ex, p + 1⟩
termination_by s => s.eventStream.length

/-- Result of one `__anext__` call: an event, `StopAsyncIteration`, or the
`RuntimeError("Stream must be validated before iterating")`. -/
inductive AnextResult where
  | event (e : StreamingEvent)
  | stopIteration
  | notValidatedError
deriving DecidableEq, Repr

/-- `ValidatedEventStream.__anext__`: require `validated`; serve buffered
events first; if the stream was exhausted during validation stop without
touching the upstream source; otherwise pull the next upstream event
(counted in `pulls`), forwarding `StopAsyncIteration` when it ends. -/
def ValidatedEventStream.anext (s : ValidatedEventStream) :
    AnextResult × ValidatedEventStream :=
  if s.validated = false then (.notValidatedError, s)
  else
    match s.buffer with
    | e :: rest => (.event e, { s with buffer := rest })
    | [] =>
      if s.exhausted then (.stopIteration, s)
      else
        match s.eventStream with
        | [] => (.stopIteration, { s with pulls := s.pulls + 1 })
        | e :: rest => (.event e, { s with eventStream := rest, pulls := s.pulls + 1 })

/-- A consumer iterating the validator: call `__anext__` up to `fuel` times,
collecting yielded events, stopping at the first non-event result. -/
def ValidatedEventStream.drain :
    Nat → ValidatedEventStream → List StreamingEvent × ValidatedEventStream
  | 0, s => ([], s)
  | fuel + 1, s =>
    match s.anext with
    | (.event e, s1) =>
        let r := ValidatedEventStream.drain fuel s1
        (e :: r.1, r.2)
    | (.stopIteration, s1) => ([], s1)
    | (.notValidatedError, s1) => ([], s1)

/- Helper lemmas about the validator. -/

theorem validate_skips_other (pre : List StreamingEvent)
    (h : ∀ e ∈ pre, e.isOther = true) :
    ∀ (tail buf : List StreamingEvent) (v ex : Bool) (p : Nat),
      ValidatedEventStream.validate ⟨pre ++ tail, buf, v, ex, p⟩ =
        ValidatedEventStream.validate ⟨tail, buf ++ pre, v, ex, p + pre.length⟩ := by
  induction pre with
  | nil => intro tail buf v ex p; simp
  | cons e pre ih =>
    intro tail buf v ex p
    have he : e.isOther = true := h e (List.mem_cons_self e pre)
    have hrest : ∀ x ∈ pre, x.isOther = true := fun x hx => h x (List.mem_cons_of_mem e hx)
    cases e with
    | errorEvent t msg => simp [StreamingEvent.isOther] at he
    | contentBlockDelta d => simp [StreamingEvent.isOther] at he
    | other tag =>
      have h1 : ValidatedEventStream.validate ⟨.other tag :: (pre ++ tail), buf, v, ex, p⟩ =
          ValidatedEventStream.validate ⟨pre ++ tail, buf ++ [.other tag], v, ex, p + 1⟩ := by
        simp [ValidatedEventStream.validate]
      have h2 : (buf ++ [StreamingEvent.other tag]) ++ pre = buf ++ (.other tag :: pre) := by
        simp
      have h3 : p + 1 + pre.length = p + (pre.length + 1) := by omega
      calc ValidatedEventStream.validate
            ⟨(StreamingEvent.other tag :: pre) ++ tail, buf, v, ex, p⟩
          = ValidatedEventStream.validate
              ⟨pre ++ tail, buf ++ [StreamingEvent.other tag], v, ex, p + 1⟩ := h1
        _ = ValidatedEventStream.validate
              ⟨tail, (buf ++ [StreamingEvent.other tag]) ++ pre, v, ex, p + 1 + pre.length⟩ :=
            ih hrest tail (buf ++ [StreamingEvent.other tag]) v ex (p + 1)
        _ = ValidatedEventStream.validate
              ⟨tail, buf ++ (StreamingEvent.other tag :: pre), v, ex, p + (pre.length + 1)⟩ := by
            rw [h2, h3]
        _ = ValidatedEventStream.validate
              ⟨tail, buf ++ (StreamingEvent.other tag :: pre), v, ex,
                p + (StreamingEvent.other tag :: pre).length⟩ := by
            simp

theorem validate_empty_tail (pre : List StreamingEvent)
    (h : ∀ e ∈ pre, e.isOther = true) :
    ValidatedEventStream.validate (ValidatedEventStream.init pre) =
      (⟨[], pre, true, true, pre.length⟩, none) := by
  have h0 := validate_skips_other pre h [] [] false false 0
  have h1 : ValidatedEventStream.validate ⟨[], pre, false, false, pre.length⟩ =
      (⟨[], pre, true, true, pre.length⟩, none) := by
    simp [ValidatedEventStream.validate]
  simp only [List.append_nil, List.nil_append, Nat.zero_add] at h0
  rw [ValidatedEventStream.init]
  rw [h0, h1]

theorem drain_exhausted_state (fuel : Nat) :
    ∀ (tail buf : List StreamingEvent) (p : Nat),
      ValidatedEventStream.drain fuel ⟨tail, buf, true, true, p⟩ =
        (buf.take fuel, ⟨tail, buf.drop fuel, true, true, p⟩) := by
  induction fuel with
  | zero => intro tail buf p; simp [ValidatedEventStream.drain]
  | succ n ih =>
    intro tail buf p
    cases buf with
    | nil =>
      simp [ValidatedEventStream.drain, ValidatedEventStream.anext]
    | cons e rest =>
      simp [ValidatedEventStream.drain, ValidatedEventStream.anext, ih]

theorem drain_replay (fuel : Nat) :
    ∀ (tail buf : List StreamingEvent) (p : Nat),
      buf.length + tail.length < fuel →
      (ValidatedEventStream.drain fuel ⟨tail, buf, true, false, p⟩).1 = buf ++ tail := by
  induction fuel with
  | zero => intro tail buf p h; omega
  | succ n ih =>
    intro tail buf p h
    cases buf with
    | nil =>
      cases tail with
      | nil => simp [ValidatedEventStream.drain, ValidatedEventStream.anext]
      | cons e rest =>
        simp only [ValidatedEventStream.drain, ValidatedEventStream.anext]
        simp only [List.length_nil, List.length_cons] at h
        simp [ih rest [] (p + 1) (by simpa using h)]
    | cons e rest =>
      simp only [ValidatedEventStream.drain, ValidatedEventStream.anext]
      simp only [List.length_cons] at h
      simp [ih tail rest p (by omega)]

theorem drain_not_validated (fuel : Nat) (s : ValidatedEventStream)
    (h : s.validated = false) :
    ValidatedEventStream.drain fuel s = ([], s) := by
  cases fuel with
  | zero => simp [ValidatedEventStream.drain]
  | succ n => simp [ValidatedEventStream.drain, ValidatedEventStream.anext, h]

/- ===================================================================
   Account pool manager (src/app/services/account.py)
   =================================================================== -/

/-- Capability flags of an account, used only for filtering. -/
structure Capabilities where
  isPro : Bool
  isMax : Bool
deriving DecidableEq, Repr

/-- OAuth token record `{accessToken, refreshToken, expiresAt}`;
`expiresAt` is a Unix timestamp in seconds. -/
structure OAuthToken where
  accessToken : String
  refreshToken : Option String
  expiresAt : Int
deriving DecidableEq, Repr

/-- `AccountStatus` from `app/core/account.py`. -/
inductive AccountStatus where
  | valid
  | rateLimited
  | invalid
deriving DecidableEq, Repr

/-- `AuthType` from `app/core/account.py`. -/
inductive AuthType where
  | cookieOnly
  | oauthOnly
  | both
deriving DecidableEq, Repr

/-- Modelled from the spec: the `Account` data entity of
`app/core/account.py`, which is not part of the provided sources. Per the
spec's data model it is a plain record (credential + status + usage
metadata, no behavior): `organizationId` primary key, optional
`cookieValue`, optional structured `oauthToken`, `authType`,
`capabilities = {isPro, isMax}`, `status`, optional `resetsAt`
timestamp, and `lastUsed` timestamp. Timestamps are modelled as `Int`
(seconds). -/
structure Account where
  organizationUuid : String
  cookieValue : Option String
  oauthToken : Option OAuthToken
  authType : AuthType
  capabilities : Capabilities
  status : AccountStatus
  resetsAt : Option Int
  lastUsed : Int
deriving DecidableEq, Repr

/-- `account.is_pro` (derived from capabilities). -/
def Account.isPro (a : Account) : Bool := a.capabilities.isPro

/-- `account.is_max` (derived from capabilities). -/
def Account.isMax (a : Account) : Bool := a.capabilities.isMax

/-- Association-list lookup modelling Python `dict` indexing / `in`. -/
def alookup {β : Type} : List (String × β) → String → Option β
  | [], _ => none
  | (k, v) :: rest, key => if k = key then some v else alookup rest key

/-- `del d[key]` on a Python dict, modelled on an insertion-ordered list. -/
def aerase {β : Type} (l : List (String × β)) (key : String) : List (String × β) :=
  l.filter (fun kv => kv.1 != key)

/-- `d[key] = v` on a Python dict: update in place, append if new. -/
def aset {β : Type} : List (String × β) → String → β → List (String × β)
  | [], key, v => [(key, v)]
  | (k, w) :: rest, key, v =>
      if k = key then (k, v) :: rest else (k, w) :: aset rest key v

/-- In-memory state of the `AccountManager` singleton: the `_accounts` dict
(insertion-ordered, keyed by `organization_uuid`, kept equal to the stored
account's own `organizationUuid` field), `_cookie_to_uuid`,
`_session_accounts`, `_account_sessions` (a `defaultdict(set)`; the inner
list is kept duplicate-free by `sessionSetAdd`), and
`_max_sessions_per_account` from settings. -/
structure AccountManager where
  accounts : List Account
  cookieToUuid : List (String × String)
  sessionAccounts : List (String × String)
  accountSessions : List (String × List String)
  maxSessionsPerAccount : Nat
deriving DecidableEq, Repr

/-- `self._accounts[uuid]` / `uuid in self._accounts`. -/
def AccountManager.findAccount (m : AccountManager) (uuid : String) : Option Account :=
  m.accounts.find? (fun a => a.organizationUuid == uuid)

/-- `len(self._account_sessions[uuid])` (`defaultdict`: missing key counts 0). -/
def AccountManager.sessionCount (m : AccountManager) (uuid : String) : Nat :=
  ((alookup m.accountSessions uuid).getD []).length

/-- `set.add`: insert a session id if not already present. -/
def sessionSetAdd (sessions : List String) (sid : String) : List String :=
  if sessions.contains sid then sessions else sessions ++ [sid]

/-- Record a new affinity binding: `_session_accounts[sid] = uuid` and
`_account_sessions[uuid].add(sid)`. -/
def AccountManager.bindSession (m : AccountManager) (sid uuid : String) : AccountManager :=
  { m with
    sessionAccounts := aset m.sessionAccounts sid uuid,
    accountSessions :=
      aset m.accountSessions uuid
        (sessionSetAdd ((alookup m.accountSessions uuid).getD []) sid) }

/-- Lazy eviction of a stale binding: `del self._session_accounts[sid]` and
`self._account_sessions[uuid].discard(sid)`. -/
def AccountManager.evictSession (m : AccountManager) (sid uuid : String) : AccountManager :=
  { m with
    sessionAccounts := aerase m.sessionAccounts sid,
    accountSessions :=
      aset m.accountSessions uuid
        (((alookup m.accountSessions uuid).getD []).filter (fun x => x != sid)) }

/-- An unset (`None`) capability filter matches any value:
`if f is not None and account.flag != f: continue`. -/
def matchesFilter (f : Option Bool) (v : Bool) : Bool :=
  match f with
  | none => true
  | some b => v == b

/-- `account.auth_type in [AuthType.BOTH, AuthType.COOKIE_ONLY]`. -/
def supportsCookieAuth : AuthType → Bool
  | .both => true
  | .cookieOnly => true
  | .oauthOnly => false

/-- `account.auth_type in [AuthType.OAUTH_ONLY, AuthType.BOTH]`. -/
def supportsOAuth : AuthType → Bool
  | .both => true
  | .oauthOnly => true
  | .cookieOnly => false

/-- The four `continue` guards of the `get_account_for_session` scan:
`Valid` status, cookie-capable auth type, both capability filters, and the
per-account session cap. -/
def AccountManager.eligibleForSession (m : AccountManager) (isPro isMax : Option Bool)
    (a : Account) : Bool :=
  a.status == .valid && supportsCookieAuth a.authType &&
  matchesFilter isPro a.isPro && matchesFilter isMax a.isMax &&
  decide (m.sessionCount a.organizationUuid < m.maxSessionsPerAccount)

/-- Loop state of the `get_account_for_session` scan: `best_account`,
`min_sessions` (`none` encodes the initial `float("inf")`), and
`earliest_last_used`. -/
structure SelState where
  best : Option Account
  minSessions : Option Nat
  earliest : Option Int
deriving DecidableEq, Repr

/-- `session_count < min_sessions` where `min_sessions` starts at `float("inf")`. -/
def ltInf (n : Nat) : Option Nat → Bool
  | none => true
  | some m => decide (n < m)

/-- One iteration of the `get_account_for_session` scan over `_accounts`. -/
def selStep (m : AccountManager) (isPro isMax : Option Bool) (st : SelState)
    (a : Account) : SelState :=
  if m.eligibleForSession isPro isMax a then
    if ltInf (m.sessionCount a.organizationUuid) st.minSessions ||
        (st.minSessions == some (m.sessionCount a.organizationUuid) &&
          (match st.earliest with
           | some e => decide (a.lastUsed < e)
           | none => false)) then
      ⟨some a, some (m.sessionCount a.organizationUuid), some a.lastUsed⟩
    else st
  else st

/-- The reselection scan of `get_account_for_session` (lines 178-224): fold
the loop over `_accounts`, then either bind the best account to the session
and return it, or raise `NoAccountsAvailableError` (the `Except.error`). -/
def AccountManager.freshSelect (m : AccountManager) (sid : String)
    (isPro isMax : Option Bool) : Except Unit (Account × AccountManager) :=
  match (m.accounts.foldl (selStep m isPro isMax) ⟨none, none, none⟩).best with
  | some a => .ok (a, m.bindSession sid a.organizationUuid)
  | none => .error ()

/-- The sticky-affinity check: the account bound to `sid`, provided it still
exists and is `Valid`. -/
def AccountManager.stickyAccount (m : AccountManager) (sid : String) : Option Account :=
  match alookup m.sessionAccounts sid with
  | some uuid =>
    match m.findAccount uuid with
    | some a => if a.status == .valid then some a else none
    | none => none
  | none => none

/-- The lazy-eviction step at the top of `get_account_for_session`: when the
bound account exists but is no longer `Valid`, both affinity entries for the
session are dropped before reselection; otherwise the state is unchanged. -/
def AccountManager.lazyEvict (m : AccountManager) (sid : String) : AccountManager :=
  match alookup m.sessionAccounts sid with
  | some uuid =>
    match m.findAccount uuid with
    | some a => if a.status == .valid then m else m.evictSession sid uuid
    | none => m
  | none => m

/-- `AccountManager.get_account_for_session(session_id, is_pro, is_max)`:
return the sticky account when its binding is live and `Valid`; otherwise
evict a stale binding if present and rescan. -/
def AccountManager.get_account_for_session (m : AccountManager) (sid : String)
    (isPro isMax : Option Bool) : Except Unit (Account × AccountManager) :=
  match m.stickyAccount sid with
  | some a => .ok (a, m)
  | none => (m.lazyEvict sid).freshSelect sid isPro isMax

/-- One iteration of the `get_account_for_oauth` scan: keep the `Valid`,
OAuth-capable, filter-matching account with the oldest `last_used`. -/
def oauthSelStep (isPro isMax : Option Bool) (st : Option Account)
    (a : Account) : Option Account :=
  if a.status == .valid && supportsOAuth a.authType &&
      matchesFilter isPro a.isPro && matchesFilter isMax a.isMax then
    match st with
    | none => some a
    | some b => if a.lastUsed < b.lastUsed then some a else b
  else st

/-- `AccountManager.get_account_for_oauth(is_pro, is_max)`: select the
`Valid` OAuth-capable account with the single oldest `last_used`, with no
session-count constraint and no state mutation; raise
`NoAccountsAvailableError` when none qualifies. -/
def AccountManager.get_account_for_oauth (m : AccountManager)
    (isPro isMax : Option Bool) : Except Unit Account :=
  match m.accounts.foldl (oauthSelStep isPro isMax) none with
  | some a => .ok a
  | none => .error ()

/- test_account (src/app/services/account.py lines 295-409). The external
collaborator calls are inputs: `cookieOk` abstracts whether
`get_organization_info(cookie)` returned a truthy organization uuid (the
exception branch has the same effect on the modelled fields as a falsy
result); `fetchedCaps` is the capabilities it returned; `refreshResult`
abstracts `refresh_account_token` (`some tok` = success with the token the
refresh wrote into the account, `none` = failure or exception); `now` is
`datetime.now(UTC).timestamp()`. -/

/-- Subset of the `test_results` dict updated by `test_account`. -/
structure TestResults where
  success : Bool
  cookieValid : Option Bool
  oauthValid : Option Bool
deriving DecidableEq, Repr

/-- The cookie-authentication test block of `test_account`: runs when the
auth type is cookie-capable and a cookie is present; on success records
`cookie_valid=True` and updates changed capabilities; on failure records
`cookie_valid=False` and `success=False`. -/
def cookiePhase (a : Account) (cookieOk : Bool) (fetchedCaps : Option Capabilities)
    (r : TestResults) : TestResults × Account :=
  if supportsCookieAuth a.authType && a.cookieValue.isSome then
    if cookieOk then
      ({ r with cookieValid := some true },
       match fetchedCaps with
       | some caps => if caps != a.capabilities then { a with capabilities := caps } else a
       | none => a)
    else ({ r with cookieValid := some false, success := false }, a)
  else (r, a)

/-- The OAuth test block of `test_account`: runs when the auth type is
OAuth-capable and a token is present; if the token expires within 300
seconds, attempt a refresh (success writes the refreshed token, failure
records `oauth_valid=False` and `success=False`); otherwise accept the
token without a round trip. -/
def oauthPhase (a : Account) (now : Int) (refreshResult : Option OAuthToken)
    (r : TestResults) : TestResults × Account :=
  if supportsOAuth a.authType && a.oauthToken.isSome then
    match a.oauthToken with
    | some tok =>
      if tok.expiresAt - now < 300 then
        match refreshResult with
        | some newTok =>
            ({ r with oauthValid := some true }, { a with oauthToken := some newTok })
        | none => ({ r with oauthValid := some false, success := false }, a)
      else ({ r with oauthValid := some true }, a)
    | none => (r, a)
  else (r, a)

/-- The status-update block of `test_account` (lines 376-404): aggregate
success sets `status=Valid` and clears `resets_at`; for `Both`-auth
accounts with exactly one failed method, downgrade `auth_type` and clear
the failed credential, flipping `success` back to `True` without touching
`status`; otherwise mark the account `Invalid`. -/
def aggregatePhase (a : Account) (r : TestResults) : TestResults × Account :=
  if r.success then (r, { a with status := .valid, resetsAt := none })
  else if a.authType == .both then
    if r.cookieValid == some false && r.oauthValid == some false then
      (r, { a with status := .invalid })
    else if r.cookieValid == some false then
      ({ r with success := true }, { a with authType := .oauthOnly, cookieValue := none })
    else if r.oauthValid == some false then
      ({ r with success := true }, { a with authType := .cookieOnly, oauthToken := none })
    else (r, a)
  else (r, { a with status := .invalid })

/-- The full credential-test sequence of `test_account` on one account:
cookie phase, then OAuth phase, then the status update. -/
def runTestChecks (a : Account) (cookieOk : Bool) (fetchedCaps : Option Capabilities)
    (now : Int) (refreshResult : Option OAuthToken) : TestResults × Account :=
  let r0 : TestResults := ⟨true, none, none⟩
  let c := cookiePhase a cookieOk fetchedCaps r0
  let o := oauthPhase c.2 now refreshResult c.1
  aggregatePhase o.2 o.1

/-- Replace the stored account for `uuid` (Python mutates the shared object
in place; here the entry in `_accounts` is replaced). -/
def AccountManager.setAccount (m : AccountManager) (uuid : String) (a' : Account) :
    AccountManager :=
  { m with accounts := m.accounts.map (fun b => if b.organizationUuid == uuid then a' else b) }

/-- `AccountManager.test_account(organization_uuid)`: not-found returns a
failed result and leaves the state alone; otherwise run the checks on the
stored account and store the mutated account. `_cookie_to_uuid` is never
touched. -/
def AccountManager.test_account (m : AccountManager) (uuid : String) (cookieOk : Bool)
    (fetchedCaps : Option Capabilities) (now : Int) (refreshResult : Option OAuthToken) :
    TestResults × AccountManager :=
  match m.findAccount uuid with
  | none => (⟨false, none, none⟩, m)
  | some a =>
    let r := runTestChecks a cookieOk fetchedCaps now refreshResult
    (r.1, m.setAccount uuid r.2)

/- add_account (src/app/services/account.py lines 48-125). External inputs:
`fetchedUuid`/`fetchedCaps` abstract `get_organization_info(cookie_value)`
(only called when a cookie is present and uuid or capabilities are
missing), `freshUuid` the generated `uuid.uuid4()`, `now` the creation
timestamp of a new account. Python credential truthiness is modelled by
`Option` presence. -/

/-- Auth-type derivation for a newly created account. -/
def deriveAuthType (cookieValue : Option String) (oauthToken : Option OAuthToken) :
    AuthType :=
  match cookieValue, oauthToken with
  | some _, some _ => .both
  | some _, none => .cookieOnly
  | none, _ => .oauthOnly

/-- The merge branch of `add_account`: an explicit or fetched uuid collides
with an existing account, so a differing new cookie is merged into it
(stale cookie mapping replaced) instead of creating a duplicate. -/
def mergeCookieIntoExisting (m : AccountManager) (uuid : String) (existing : Account)
    (cookieValue : Option String) : Account × AccountManager :=
  match cookieValue with
  | some c =>
    if existing.cookieValue != some c then
      let cleaned :=
        match existing.cookieValue with
        | some oldC => aerase m.cookieToUuid oldC
        | none => m.cookieToUuid
      let existing1 := { existing with cookieValue := some c }
      (existing1,
       { (m.setAccount uuid existing1) with cookieToUuid := aset cleaned c uuid })
    else (existing, m)
  | none => (existing, m)

/-- Account creation at the end of `add_account`. Modelled from the spec:
the `Account` constructor's defaults (the class is outside the provided
sources) follow the spec's lifecycle — a newly added account starts
`Valid` with no `resetsAt`, with `lastUsed` its creation time and
capabilities defaulting to neither flag. -/
def createAccount (m : AccountManager) (uuid : String) (cookieValue : Option String)
    (oauthToken : Option OAuthToken) (caps : Option Capabilities) (now : Int) :
    Account × AccountManager :=
  let newAccount : Account :=
    { organizationUuid := uuid, cookieValue := cookieValue, oauthToken := oauthToken,
      authType := deriveAuthType cookieValue oauthToken,
      capabilities := caps.getD ⟨false, false⟩,
      status := .valid, resetsAt := none, lastUsed := now }
  (newAccount,
   { m with
     accounts := m.accounts ++ [newAccount],
     cookieToUuid :=
       match cookieValue with
       | some c => aset m.cookieToUuid c uuid
       | none => m.cookieToUuid })

/-- `AccountManager.add_account(cookie_value, oauth_token, organization_uuid,
capabilities)`: reject when both credentials are missing; return the
existing account unchanged on a duplicate cookie (a dangling
`_cookie_to_uuid` entry is a `KeyError`); fetch organization info when the
cookie is present and uuid or capabilities are missing; merge into an
existing account on a uuid collision; otherwise create a new account under
the given, fetched or freshly generated uuid. -/
def AccountManager.add_account (m : AccountManager) (cookieValue : Option String)
    (oauthToken : Option OAuthToken) (organizationUuid : Option String)
    (capabilities : Option Capabilities) (fetchedUuid : Option String)
    (fetchedCaps : Option Capabilities) (freshUuid : String) (now : Int) :
    Except String (Account × AccountManager) :=
  match cookieValue, oauthToken with
  | none, none => .error "Either cookie_value or oauth_token must be provided"
  | _, _ =>
    match cookieValue.bind (alookup m.cookieToUuid) with
    | some uuid =>
      match m.findAccount uuid with
      | some a => .ok (a, m)
      | none => .error "KeyError"
    | none =>
      let fetchNeeded := cookieValue.isSome &&
        (organizationUuid.isNone || capabilities.isNone)
      let orgUuid1 :=
        if fetchNeeded then
          match fetchedUuid with
          | some u => some u
          | none => organizationUuid
        else organizationUuid
      let caps1 := if fetchNeeded then fetchedCaps else capabilities
      match orgUuid1 with
      | some uuid =>
        match m.findAccount uuid with
        | some existing => .ok (mergeCookieIntoExisting m uuid existing cookieValue)
        | none => .ok (createAccount m uuid cookieValue oauthToken caps1 now)
      | none => .ok (createAccount m freshUuid cookieValue oauthToken caps1 now)

/- Reconciliation loop (src/app/services/account.py lines 473-501). -/

/-- The per-account body of `_check_and_recover_accounts`: promote a
`RateLimited` account whose `resets_at` is set and has passed
(`current_time >= account.resets_at`) back to `Valid`, clearing
`resets_at`; leave every other account unchanged. -/
def recoverAccount (now : Int) (a : Account) : Account :=
  if a.status == .rateLimited then
    match a.resetsAt with
    | some r => if r ≤ now then { a with status := .valid, resetsAt := none } else a
    | none => a
  else a

/-- `_check_and_recover_accounts`: apply the recovery body to every account. -/
def check_and_recover_accounts (now : Int) (accounts : List Account) : List Account :=
  accounts.map (recoverAccount now)

/-- Exception flow of the tick body: the `for account in
self._accounts.values()` loops of `_check_and_recover_accounts` /
`_check_and_refresh_accounts` have no per-account `try`/`except`, so a
raising body (`step a = none`; the account is left as it was) stops the
loop there, leaving the remaining accounts unprocessed; the `Bool` records
whether the tick raised. -/
def tickRun (step : Account → Option Account) :
    List Account → List Account × Bool
  | [] => ([], false)
  | a :: rest =>
    match step a with
    | some a' =>
      let r := tickRun step rest
      (a' :: r.1, r.2)
    | none => (a :: rest, true)

/-- `_task_loop`: each iteration runs one tick inside `try`/`except
Exception` (so a raising tick is caught and logged, never propagated),
then sleeps and continues; running `n` iterations always executes exactly
`n` ticks, counted in the second component. -/
def task_loop (step : Account → Option Account) (accounts : List Account) :
    Nat → List Account × Nat
  | 0 => (accounts, 0)
  | n + 1 =>
    let t := tickRun step accounts
    let r := task_loop step t.1 n
    (r.1, r.2 + 1)


/- ===================================================================
   Claim theorems: streaming validator
   =================================================================== -/

/-- Running `validate()` on a freshly constructed `ValidatedEventStream`
wrapping the given upstream sequence. -/
def validateStream (events : List StreamingEvent) :
    ValidatedEventStream × Option ClaudeStreamingError :=
  (ValidatedEventStream.init events).validate

/-- C1: if the buffering phase observes an `ErrorEvent` before any
`ContentDelta`, `validate()` raises a `ClaudeStreamingError` carrying the
upstream error's type and message; the stream is left unvalidated, so any
`__anext__` call raises the loud `RuntimeError` instead of yielding, and a
consumer loop yields no events at all. -/
theorem validator_error_before_content (pre post : List StreamingEvent) (t msg : String)
    (h : ∀ e ∈ pre, e.isOther = true) :
    (validateStream (pre ++ .errorEvent t msg :: post)).2 = some ⟨t, msg⟩ ∧
    (validateStream (pre ++ .errorEvent t msg :: post)).1.validated = false ∧
    (validateStream (pre ++ .errorEvent t msg :: post)).1.anext =
      (.notValidatedError, (validateStream (pre ++ .errorEvent t msg :: post)).1) ∧
    ∀ fuel,
      (ValidatedEventStream.drain fuel
        (validateStream (pre ++ .errorEvent t msg :: post)).1).1 = [] := by
  have hr : validateStream (pre ++ .errorEvent t msg :: post) =
      (⟨post, pre ++ [.errorEvent t msg], false, false, pre.length + 1⟩,
       some ⟨t, msg⟩) := by
    rw [validateStream, ValidatedEventStream.init,
        validate_skips_other pre h (.errorEvent t msg :: post) [] false false 0]
    simp [ValidatedEventStream.validate]
  rw [hr]
  refine ⟨rfl, rfl, ?_, ?_⟩
  · simp [ValidatedEventStream.anext]
  · intro fuel
    rw [drain_not_validated fuel _ rfl]

/-- C1 witness: the spec's concrete error case
`[A, ErrorEvent{type:"overloaded", message:"busy"}]`. -/
theorem validator_error_before_content_witness :
    (∀ e ∈ [StreamingEvent.other "message_start"], e.isOther = true) ∧
    ((validateStream
        ([StreamingEvent.other "message_start"] ++
          .errorEvent "overloaded" "busy" :: [])).2 = some ⟨"overloaded", "busy"⟩ ∧
     (validateStream
        ([StreamingEvent.other "message_start"] ++
          .errorEvent "overloaded" "busy" :: [])).1.validated = false ∧
     (validateStream
        ([StreamingEvent.other "message_start"] ++
          .errorEvent "overloaded" "busy" :: [])).1.anext =
        (.notValidatedError,
         (validateStream
            ([StreamingEvent.other "message_start"] ++
              .errorEvent "overloaded" "busy" :: [])).1) ∧
     ∀ fuel,
       (ValidatedEventStream.drain fuel
         (validateStream
            ([StreamingEvent.other "message_start"] ++
              .errorEvent "overloaded" "busy" :: [])).1).1 = []) :=
  ⟨by decide,
   validator_error_before_content [StreamingEvent.other "message_start"] []
     "overloaded" "busy" (by decide)⟩

/-- C2: for an upstream sequence whose prefix before the first
`ContentDelta` contains neither a `ContentDelta` nor an `ErrorEvent`,
`validate()` succeeds with the prefix (including the delta) buffered in
original order and the tail still on the upstream stream, and a consumer
drain yields exactly the original upstream sequence, nothing added,
dropped, reordered or deduplicated. -/
theorem validator_round_trip (pre post : List StreamingEvent) (d : String)
    (h : ∀ e ∈ pre, e.isOther = true) :
    (validateStream (pre ++ .contentBlockDelta d :: post)).2 = none ∧
    (validateStream (pre ++ .contentBlockDelta d :: post)).1.validated = true ∧
    (validateStream (pre ++ .contentBlockDelta d :: post)).1.buffer =
      pre ++ [.contentBlockDelta d] ∧
    (validateStream (pre ++ .contentBlockDelta d :: post)).1.eventStream = post ∧
    (ValidatedEventStream.drain ((pre ++ .contentBlockDelta d :: post).length + 1)
        (validateStream (pre ++ .contentBlockDelta d :: post)).1).1 =
      pre ++ .contentBlockDelta d :: post := by
  have hr : validateStream (pre ++ .contentBlockDelta d :: post) =
      (⟨post, pre ++ [.contentBlockDelta d], true, false, pre.length + 1⟩, none) := by
    rw [validateStream, ValidatedEventStream.init,
        validate_skips_other pre h (.contentBlockDelta d :: post) [] false false 0]
    simp [ValidatedEventStream.validate]
  rw [hr]
  refine ⟨rfl, rfl, rfl, rfl, ?_⟩
  dsimp only
  rw [drain_replay _ post (pre ++ [StreamingEvent.contentBlockDelta d]) (pre.length + 1)
    (by simp; omega)]
  simp

/-- C2 witness: the spec's round-trip sequence `[A, B, ContentDelta, C, D]`. -/
theorem validator_round_trip_witness :
    (∀ e ∈ [StreamingEvent.other "A", StreamingEvent.other "B"], e.isOther = true) ∧
    ((validateStream
        ([StreamingEvent.other "A", StreamingEvent.other "B"] ++
          .contentBlockDelta "delta" ::
            [StreamingEvent.other "C", StreamingEvent.other "D"])).2 = none ∧
     (validateStream
        ([StreamingEvent.other "A", StreamingEvent.other "B"] ++
          .contentBlockDelta "delta" ::
            [StreamingEvent.other "C", StreamingEvent.other "D"])).1.validated = true ∧
     (validateStream
        ([StreamingEvent.other "A", StreamingEvent.other "B"] ++
          .contentBlockDelta "delta" ::
            [StreamingEvent.other "C", StreamingEvent.other "D"])).1.buffer =
       [StreamingEvent.other "A", StreamingEvent.other "B"] ++
         [.contentBlockDelta "delta"] ∧
     (validateStream
        ([StreamingEvent.other "A", StreamingEvent.other "B"] ++
          .contentBlockDelta "delta" ::
            [StreamingEvent.other "C", StreamingEvent.other "D"])).1.eventStream =
       [StreamingEvent.other "C", StreamingEvent.other "D"] ∧
     (ValidatedEventStream.drain
        (([StreamingEvent.other "A", StreamingEvent.other "B"] ++
          .contentBlockDelta "delta" ::
            [StreamingEvent.other "C", StreamingEvent.other "D"]).length + 1)
        (validateStream
          ([StreamingEvent.other "A", StreamingEvent.other "B"] ++
            .contentBlockDelta "delta" ::
              [StreamingEvent.other "C", StreamingEvent.other "D"])).1).1 =
       [StreamingEvent.other "A", StreamingEvent.other "B"] ++
         .contentBlockDelta "delta" ::
           [StreamingEvent.other "C", StreamingEvent.other "D"]) :=
  ⟨by decide,
   validator_round_trip [StreamingEvent.other "A", StreamingEvent.other "B"]
     [StreamingEvent.other "C", StreamingEvent.other "D"] "delta" (by decide)⟩

/-- C8: for an upstream stream that ends with no `ContentDelta` and no
`ErrorEvent` (including the empty stream), `validate()` succeeds marking
the stream validated and exhausted, a consumer sees exactly the buffered
events followed by end-of-stream, and no matter how long the consumer
keeps iterating, the exhausted upstream source is never pulled again (the
pull counter never moves after validation). -/
theorem validator_exhausted_stream (events : List StreamingEvent)
    (h : ∀ e ∈ events, e.isOther = true) :
    (validateStream events).2 = none ∧
    (validateStream events).1.validated = true ∧
    (validateStream events).1.exhausted = true ∧
    (ValidatedEventStream.drain (events.length + 1) (validateStream events).1).1 =
      events ∧
    ((ValidatedEventStream.drain (events.length + 1) (validateStream events).1).2).anext =
      (.stopIteration,
       (ValidatedEventStream.drain (events.length + 1) (validateStream events).1).2) ∧
    ∀ fuel,
      (ValidatedEventStream.drain fuel (validateStream events).1).2.pulls =
        (validateStream events).1.pulls := by
  have hr : validateStream events = (⟨[], events, true, true, events.length⟩, none) := by
    rw [validateStream]; exact validate_empty_tail events h
  rw [hr]
  refine ⟨rfl, rfl, rfl, ?_, ?_, ?_⟩
  · rw [drain_exhausted_state]
    exact List.take_of_length_le (by omega)
  · rw [drain_exhausted_state]
    have hd : events.drop (events.length + 1) = [] :=
      List.drop_eq_nil_of_le (by omega)
    rw [hd]
    simp [ValidatedEventStream.anext]
  · intro fuel
    rw [drain_exhausted_state]

/-- C8 witness: the spec's empty case `[]`, plus a stream of only opaque
events. -/
theorem validator_exhausted_stream_witness :
    ((∀ e ∈ ([] : List StreamingEvent), e.isOther = true) ∧
      (validateStream []).2 = none ∧ (validateStream []).1.validated = true ∧
      (validateStream []).1.exhausted = true) ∧
    (∀ e ∈ [StreamingEvent.other "message_start"], e.isOther = true) ∧
    (validateStream [StreamingEvent.other "message_start"]).2 = none :=
  ⟨⟨by decide, (validator_exhausted_stream [] (by decide)).1,
    (validator_exhausted_stream [] (by decide)).2.1,
    (validator_exhausted_stream [] (by decide)).2.2.1⟩,
   by decide,
   (validator_exhausted_stream [StreamingEvent.other "message_start"] (by decide)).1⟩


/- ===================================================================
   Claim theorems: reconciliation recovery (C7) and tick error flow (C5)
   =================================================================== -/

/-- C7: a reconciliation tick promotes every `RateLimited` account whose
`resetsAt` has passed (`now >= resetsAt`) back to `Valid` and clears
`resetsAt`, and leaves every `RateLimited` account whose `resetsAt` is
still in the future unchanged. -/
theorem recover_rate_limited_accounts (now : Int) (accounts : List Account)
    (i : Nat) (a : Account) (r : Int) (ha : accounts[i]? = some a)
    (hst : a.status = .rateLimited) (hr : a.resetsAt = some r) :
    (r ≤ now →
      (check_and_recover_accounts now accounts)[i]? =
        some { a with status := .valid, resetsAt := none }) ∧
    (now < r → (check_and_recover_accounts now accounts)[i]? = some a) := by
  have hm : (check_and_recover_accounts now accounts)[i]? =
      some (recoverAccount now a) := by
    rw [check_and_recover_accounts, List.getElem?_map (recoverAccount now) accounts i, ha]
    rfl
  rw [hm]
  constructor
  · intro hle
    rw [recoverAccount, hst, hr]
    simp [hle]
  · intro hlt
    rw [recoverAccount, hst, hr]
    simp [not_le.mpr hlt]

/-- C7 witness: the spec's scenario — `resetsAt = 60`: at `now = 0` the
account is unchanged, at `now = 61` it is restored to `Valid` with
`resetsAt` cleared. -/
theorem recover_rate_limited_accounts_witness :
    ([{ organizationUuid := "org-1", cookieValue := some "c1", oauthToken := none,
        authType := .cookieOnly, capabilities := ⟨false, false⟩,
        status := .rateLimited, resetsAt := some 60, lastUsed := 0 } ] :
          List Account)[0]? =
      some { organizationUuid := "org-1", cookieValue := some "c1", oauthToken := none,
             authType := .cookieOnly, capabilities := ⟨false, false⟩,
             status := .rateLimited, resetsAt := some 60, lastUsed := 0 } ∧
    (check_and_recover_accounts 0
      [{ organizationUuid := "org-1", cookieValue := some "c1", oauthToken := none,
         authType := .cookieOnly, capabilities := ⟨false, false⟩,
         status := .rateLimited, resetsAt := some 60, lastUsed := 0 }])[0]? =
      some { organizationUuid := "org-1", cookieValue := some "c1", oauthToken := none,
             authType := .cookieOnly, capabilities := ⟨false, false⟩,
             status := .rateLimited, resetsAt := some 60, lastUsed := 0 } ∧
    (check_and_recover_accounts 61
      [{ organizationUuid := "org-1", cookieValue := some "c1", oauthToken := none,
         authType := .cookieOnly, capabilities := ⟨false, false⟩,
         status := .rateLimited, resetsAt := some 60, lastUsed := 0 }])[0]? =
      some { organizationUuid := "org-1", cookieValue := some "c1", oauthToken := none,
             authType := .cookieOnly, capabilities := ⟨false, false⟩,
             status := .valid, resetsAt := none, lastUsed := 0 } :=
  ⟨rfl,
   (recover_rate_limited_accounts 0 _ 0 _ 60 rfl rfl rfl).2 (by norm_num),
   (recover_rate_limited_accounts 61 _ 0 _ 60 rfl rfl rfl).1 (by norm_num)⟩

/-- Concrete accounts for the C5 counterexample. -/
def tickCexA1 : Account :=
  { organizationUuid := "org-1", cookieValue := some "c1", oauthToken := none,
    authType := .cookieOnly, capabilities := ⟨false, false⟩,
    status := .rateLimited, resetsAt := some 50, lastUsed := 0 }

/-- Second concrete account for the C5 counterexample: rate limited with a
reset time that has already passed at the tick time used below. -/
def tickCexA2 : Account :=
  { organizationUuid := "org-2", cookieValue := some "c2", oauthToken := none,
    authType := .cookieOnly, capabilities := ⟨false, false⟩,
    status := .rateLimited, resetsAt := some 10, lastUsed := 0 }

/-- A per-account tick body that raises on the first account and performs
the normal recovery body (at time 100) on every other account. -/
def tickCexBody : Account → Option Account := fun a =>
  if a.organizationUuid == "org-1" then none else some (recoverAccount 100 a)

/-- C5 counterexample: the per-account loop has no `try`/`except`, so when
processing `org-1` raises, the tick stops there: `org-2` is left
unprocessed (still `RateLimited`) even though its recovery body would have
promoted it to `Valid`. The exception in one account therefore does stop
the processing of the other accounts in that same tick, contrary to the
claim. -/
theorem tick_exception_skips_rest_of_tick_cex :
    tickRun tickCexBody [tickCexA1, tickCexA2] = ([tickCexA1, tickCexA2], true) ∧
    recoverAccount 100 tickCexA2 =
      { tickCexA2 with status := .valid, resetsAt := none } ∧
    recoverAccount 100 tickCexA2 ≠ tickCexA2 := by
  refine ⟨rfl, rfl, ?_⟩
  decide

/-- C5 amended: a per-account exception is caught at the tick level of
`_task_loop`, so the reconciliation loop itself is never aborted (every
scheduled iteration runs one tick), but within the raising tick the
accounts before the raising one are processed while the raising account
and all accounts after it are left unchanged until a later tick. -/
theorem tick_exception_caught_at_tick_level (step : Account → Option Account)
    (pre : List Account) (b : Account) (post : List Account)
    (hpre : ∀ a ∈ pre, (step a).isSome = true) (hb : step b = none) :
    tickRun step (pre ++ b :: post) =
      (pre.map (fun a => (step a).getD a) ++ b :: post, true) ∧
    ∀ (accounts : List Account) (n : Nat), (task_loop step accounts n).2 = n := by
  constructor
  · induction pre with
    | nil =>
      simp [tickRun, hb]
    | cons x xs ih =>
      have hx : (step x).isSome = true := hpre x (List.mem_cons_self x xs)
      obtain ⟨x', hx'⟩ := Option.isSome_iff_exists.mp hx
      have hxs : ∀ a ∈ xs, (step a).isSome = true :=
        fun a hax => hpre a (List.mem_cons_of_mem x hax)
      have hih := ih hxs
      have hcons : tickRun step (x :: (xs ++ b :: post)) =
          (x' :: (tickRun step (xs ++ b :: post)).1,
           (tickRun step (xs ++ b :: post)).2) := by
        simp [tickRun, hx']
      rw [List.cons_append, hcons, hih]
      simp [hx']
  · intro accounts n
    induction n generalizing accounts with
    | zero => rfl
    | succ k ih => simp [task_loop, ih]

/-- C5 amended-claim witness in concrete form: with the counterexample pool,
the first tick processes nothing (the raising account is first) but the
loop keeps running, and with the raising account second the account before
it is still processed within the raising tick. -/
theorem tick_exception_caught_at_tick_level_witness :
    ((∀ a ∈ ([] : List Account), (tickCexBody a).isSome = true) ∧
      tickCexBody tickCexA1 = none ∧
      tickRun tickCexBody ([] ++ tickCexA1 :: [tickCexA2]) =
        (([] : List Account).map (fun a => (tickCexBody a).getD a) ++
          tickCexA1 :: [tickCexA2], true)) ∧
    (task_loop tickCexBody [tickCexA1, tickCexA2] 3).2 = 3 :=
  ⟨⟨by decide, by decide,
    (tick_exception_caught_at_tick_level tickCexBody [] tickCexA1 [tickCexA2]
      (by decide) (by decide)).1⟩,
   (tick_exception_caught_at_tick_level tickCexBody [] tickCexA1 [tickCexA2]
      (by decide) (by decide)).2 [tickCexA1, tickCexA2] 3⟩


/- ===================================================================
   Claim theorems: test_account (C9, C6)
   =================================================================== -/

theorem cookiePhase_ok_success (a : Account) (fc : Option Capabilities) (r : TestResults) :
    ((cookiePhase a true fc r).1).success = r.success := by
  rw [cookiePhase.eq_def]
  split
  · rfl
  · rfl

theorem oauthPhase_refresh_ok_success (a : Account) (now : Int) (tok : OAuthToken)
    (r : TestResults) :
    ((oauthPhase a now (some tok) r).1).success = r.success := by
  rw [oauthPhase.eq_def]
  split
  · split
    · split
      · rfl
      · rfl
    · rfl
  · rfl

theorem aggregatePhase_of_success (a : Account) (r : TestResults) (h : r.success = true) :
    aggregatePhase a r = (r, { a with status := .valid, resetsAt := none }) := by
  rw [aggregatePhase]
  simp [h]

/-- C9: whenever both credential checks come back good (here: the cookie
check passes and the OAuth side either needs no refresh or refreshes
successfully), the aggregate outcome is success and `test_account` sets
the account's status to `Valid` and clears `resetsAt` regardless of the
prior status — in particular a `RateLimited` account whose credentials
still test good is restored to `Valid` immediately, before `resetsAt`. -/
theorem test_account_success_restores_valid (a : Account)
    (fetchedCaps : Option Capabilities) (now : Int) (newTok : OAuthToken) :
    (runTestChecks a true fetchedCaps now (some newTok)).2.status = .valid ∧
    (runTestChecks a true fetchedCaps now (some newTok)).2.resetsAt = none ∧
    (runTestChecks a true fetchedCaps now (some newTok)).1.success = true := by
  have hc : ((cookiePhase a true fetchedCaps ⟨true, none, none⟩).1).success = true :=
    cookiePhase_ok_success a fetchedCaps ⟨true, none, none⟩
  have ho : ((oauthPhase (cookiePhase a true fetchedCaps ⟨true, none, none⟩).2 now
      (some newTok) (cookiePhase a true fetchedCaps ⟨true, none, none⟩).1).1).success =
      true := by
    rw [oauthPhase_refresh_ok_success]
    exact hc
  have hrun : runTestChecks a true fetchedCaps now (some newTok) =
      aggregatePhase
        (oauthPhase (cookiePhase a true fetchedCaps ⟨true, none, none⟩).2 now
          (some newTok) (cookiePhase a true fetchedCaps ⟨true, none, none⟩).1).2
        (oauthPhase (cookiePhase a true fetchedCaps ⟨true, none, none⟩).2 now
          (some newTok) (cookiePhase a true fetchedCaps ⟨true, none, none⟩).1).1 := by
    rw [runTestChecks]
  rw [hrun, aggregatePhase_of_success _ _ ho]
  exact ⟨rfl, rfl, ho⟩

/-- C9 witness: a `RateLimited` account with a far-future `resetsAt` whose
cookie and (non-expiring) OAuth token both test good is restored to
`Valid` with `resetsAt` cleared. -/
theorem test_account_success_restores_valid_witness :
    (runTestChecks
      { organizationUuid := "org-9", cookieValue := some "cookie-9",
        oauthToken := some ⟨"at", some "rt", 100000⟩, authType := .both,
        capabilities := ⟨true, false⟩, status := .rateLimited,
        resetsAt := some 5000, lastUsed := 7 }
      true none 0 (some ⟨"at2", some "rt2", 200000⟩)).2.status = .valid ∧
    (runTestChecks
      { organizationUuid := "org-9", cookieValue := some "cookie-9",
        oauthToken := some ⟨"at", some "rt", 100000⟩, authType := .both,
        capabilities := ⟨true, false⟩, status := .rateLimited,
        resetsAt := some 5000, lastUsed := 7 }
      true none 0 (some ⟨"at2", some "rt2", 200000⟩)).2.resetsAt = none :=
  ⟨(test_account_success_restores_valid
      { organizationUuid := "org-9", cookieValue := some "cookie-9",
        oauthToken := some ⟨"at", some "rt", 100000⟩, authType := .both,
        capabilities := ⟨true, false⟩, status := .rateLimited,
        resetsAt := some 5000, lastUsed := 7 }
      none 0 ⟨"at2", some "rt2", 200000⟩).1,
   (test_account_success_restores_valid
      { organizationUuid := "org-9", cookieValue := some "cookie-9",
        oauthToken := some ⟨"at", some "rt", 100000⟩, authType := .both,
        capabilities := ⟨true, false⟩, status := .rateLimited,
        resetsAt := some 5000, lastUsed := 7 }
      none 0 ⟨"at2", some "rt2", 200000⟩).2.1⟩

theorem cookiePhase_fail (a : Account) (fc : Option Capabilities) (r : TestResults)
    (hsup : supportsCookieAuth a.authType = true) (hc : a.cookieValue.isSome = true) :
    cookiePhase a false fc r =
      ({ r with cookieValid := some false, success := false }, a) := by
  rw [cookiePhase.eq_def, hsup, hc]
  rfl

theorem cookiePhase_pass (a : Account) (fc : Option Capabilities) (r : TestResults)
    (hsup : supportsCookieAuth a.authType = true) (hc : a.cookieValue.isSome = true) :
    (cookiePhase a true fc r).1 = { r with cookieValid := some true } ∧
    (cookiePhase a true fc r).2.authType = a.authType ∧
    (cookiePhase a true fc r).2.oauthToken = a.oauthToken ∧
    (cookiePhase a true fc r).2.status = a.status ∧
    (cookiePhase a true fc r).2.resetsAt = a.resetsAt := by
  rw [cookiePhase.eq_def, hsup, hc]
  cases fc with
  | none => simp
  | some caps =>
    cases hbe : caps != a.capabilities <;> simp [hbe]

theorem oauthPhase_pass (a : Account) (now : Int) (rr : Option OAuthToken)
    (tok : OAuthToken) (r : TestResults)
    (hsup : supportsOAuth a.authType = true) (ht : a.oauthToken = some tok)
    (hpass : 300 ≤ tok.expiresAt - now ∨ rr.isSome = true) :
    (oauthPhase a now rr r).1 = { r with oauthValid := some true } ∧
    (oauthPhase a now rr r).2.authType = a.authType ∧
    (oauthPhase a now rr r).2.cookieValue = a.cookieValue ∧
    (oauthPhase a now rr r).2.status = a.status ∧
    (oauthPhase a now rr r).2.resetsAt = a.resetsAt ∧
    (oauthPhase a now rr r).2.organizationUuid = a.organizationUuid := by
  rw [oauthPhase.eq_def, hsup, ht]
  by_cases hexp : tok.expiresAt - now < 300
  · rcases hpass with h300 | hsome
    · omega
    · obtain ⟨newTok, hnt⟩ := Option.isSome_iff_exists.mp hsome
      rw [hnt]
      simp [hexp]
  · simp [hexp]

theorem oauthPhase_fail (a : Account) (now : Int) (tok : OAuthToken) (r : TestResults)
    (hsup : supportsOAuth a.authType = true) (ht : a.oauthToken = some tok)
    (hexp : tok.expiresAt - now < 300) :
    oauthPhase a now none r =
      ({ r with oauthValid := some false, success := false }, a) := by
  rw [oauthPhase.eq_def, hsup, ht]
  simp [hexp]

theorem aggregatePhase_cookie_fail_downgrade (a : Account) (r : TestResults)
    (hauth : a.authType = .both) (hs : r.success = false)
    (hcv : r.cookieValid = some false) (hov : r.oauthValid = some true) :
    aggregatePhase a r = ({ r with success := true },
      { a with authType := .oauthOnly, cookieValue := none }) := by
  rw [aggregatePhase, hauth]
  simp [hs, hcv, hov]

theorem aggregatePhase_oauth_fail_downgrade (a : Account) (r : TestResults)
    (hauth : a.authType = .both) (hs : r.success = false)
    (hcv : r.cookieValid = some true) (hov : r.oauthValid = some false) :
    aggregatePhase a r = ({ r with success := true },
      { a with authType := .cookieOnly, oauthToken := none }) := by
  rw [aggregatePhase, hauth]
  simp [hs, hcv, hov]

/-- C6: on a `Both`-auth `Valid` account, a failed cookie check with a
passing OAuth check downgrades to `OAuthOnly` with the cookie cleared, and
a failed OAuth check (expiring token, failed refresh) with a passing
cookie check downgrades to `CookieOnly` with the token cleared; in both
downgrade cases the status stays `Valid` and the reported aggregate
outcome is success. -/
theorem test_account_dual_auth_downgrade (a : Account) (c : String) (tok : OAuthToken)
    (now : Int) (fetchedCaps : Option Capabilities) (refreshResult : Option OAuthToken)
    (hauth : a.authType = .both) (hc : a.cookieValue = some c)
    (ht : a.oauthToken = some tok) (hstatus : a.status = .valid) :
    ((300 ≤ tok.expiresAt - now ∨ refreshResult.isSome = true) →
      (runTestChecks a false fetchedCaps now refreshResult).2.authType = .oauthOnly ∧
      (runTestChecks a false fetchedCaps now refreshResult).2.status = .valid ∧
      (runTestChecks a false fetchedCaps now refreshResult).2.cookieValue = none ∧
      (runTestChecks a false fetchedCaps now refreshResult).1.success = true) ∧
    (tok.expiresAt - now < 300 →
      (runTestChecks a true fetchedCaps now none).2.authType = .cookieOnly ∧
      (runTestChecks a true fetchedCaps now none).2.status = .valid ∧
      (runTestChecks a true fetchedCaps now none).2.oauthToken = none ∧
      (runTestChecks a true fetchedCaps now none).1.success = true) := by
  have hcsup : supportsCookieAuth a.authType = true := by rw [hauth]; rfl
  have hosup : supportsOAuth a.authType = true := by rw [hauth]; rfl
  have hcs : a.cookieValue.isSome = true := by rw [hc]; rfl
  constructor
  · intro hpass
    have hcp := cookiePhase_fail a fetchedCaps ⟨true, none, none⟩ hcsup hcs
    have hop := oauthPhase_pass a now refreshResult tok ⟨false, some false, none⟩
      hosup ht hpass
    have hagg := aggregatePhase_cookie_fail_downgrade
      (oauthPhase a now refreshResult ⟨false, some false, none⟩).2
      (oauthPhase a now refreshResult ⟨false, some false, none⟩).1
      (by rw [hop.2.1, hauth]) (by rw [hop.1]) (by rw [hop.1]) (by rw [hop.1])
    have hrun : runTestChecks a false fetchedCaps now refreshResult =
        aggregatePhase (oauthPhase a now refreshResult ⟨false, some false, none⟩).2
          (oauthPhase a now refreshResult ⟨false, some false, none⟩).1 := by
      simp only [runTestChecks, hcp]
    rw [hrun, hagg]
    refine ⟨rfl, ?_, rfl, rfl⟩
    show (oauthPhase a now refreshResult ⟨false, some false, none⟩).2.status = .valid
    rw [hop.2.2.2.1, hstatus]
  · intro hexp
    have hcp := cookiePhase_pass a fetchedCaps ⟨true, none, none⟩ hcsup hcs
    have hosup1 : supportsOAuth
        (cookiePhase a true fetchedCaps ⟨true, none, none⟩).2.authType = true := by
      rw [hcp.2.1, hauth]; rfl
    have ht1 : (cookiePhase a true fetchedCaps ⟨true, none, none⟩).2.oauthToken =
        some tok := by
      rw [hcp.2.2.1, ht]
    have hop := oauthPhase_fail (cookiePhase a true fetchedCaps ⟨true, none, none⟩).2
      now tok (cookiePhase a true fetchedCaps ⟨true, none, none⟩).1 hosup1 ht1 hexp
    have hagg := aggregatePhase_oauth_fail_downgrade
      (cookiePhase a true fetchedCaps ⟨true, none, none⟩).2
      { (cookiePhase a true fetchedCaps ⟨true, none, none⟩).1 with
        oauthValid := some false, success := false }
      (by rw [hcp.2.1, hauth]) rfl (by rw [hcp.1]) rfl
    have hrun : runTestChecks a true fetchedCaps now none =
        aggregatePhase
          (oauthPhase (cookiePhase a true fetchedCaps ⟨true, none, none⟩).2 now none
            (cookiePhase a true fetchedCaps ⟨true, none, none⟩).1).2
          (oauthPhase (cookiePhase a true fetchedCaps ⟨true, none, none⟩).2 now none
            (cookiePhase a true fetchedCaps ⟨true, none, none⟩).1).1 := by
      rw [runTestChecks]
    rw [hrun, hop, hagg]
    refine ⟨rfl, ?_, rfl, rfl⟩
    show (cookiePhase a true fetchedCaps ⟨true, none, none⟩).2.status = .valid
    rw [hcp.2.2.2.1, hstatus]

/-- C6 witness: the spec's scenario on a concrete `Both`-auth `Valid`
account, in both downgrade directions. -/
theorem test_account_dual_auth_downgrade_witness :
    (({ organizationUuid := "org-6", cookieValue := some "cookie-6",
        oauthToken := some ⟨"at", some "rt", 100⟩, authType := .both,
        capabilities := ⟨true, false⟩, status := .valid, resetsAt := none,
        lastUsed := 7 } : Account).authType = .both) ∧
    ((runTestChecks
        { organizationUuid := "org-6", cookieValue := some "cookie-6",
          oauthToken := some ⟨"at", some "rt", 100⟩, authType := .both,
          capabilities := ⟨true, false⟩, status := .valid, resetsAt := none,
          lastUsed := 7 }
        false none 0 (some ⟨"at2", some "rt2", 900⟩)).2.authType = .oauthOnly ∧
     (runTestChecks
        { organizationUuid := "org-6", cookieValue := some "cookie-6",
          oauthToken := some ⟨"at", some "rt", 100⟩, authType := .both,
          capabilities := ⟨true, false⟩, status := .valid, resetsAt := none,
          lastUsed := 7 }
        false none 0 (some ⟨"at2", some "rt2", 900⟩)).2.status = .valid ∧
     (runTestChecks
        { organizationUuid := "org-6", cookieValue := some "cookie-6",
          oauthToken := some ⟨"at", some "rt", 100⟩, authType := .both,
          capabilities := ⟨true, false⟩, status := .valid, resetsAt := none,
          lastUsed := 7 }
        false none 0 (some ⟨"at2", some "rt2", 900⟩)).2.cookieValue = none ∧
     (runTestChecks
        { organizationUuid := "org-6", cookieValue := some "cookie-6",
          oauthToken := some ⟨"at", some "rt", 100⟩, authType := .both,
          capabilities := ⟨true, false⟩, status := .valid, resetsAt := none,
          lastUsed := 7 }
        false none 0 (some ⟨"at2", some "rt2", 900⟩)).1.success = true) ∧
    ((runTestChecks
        { organizationUuid := "org-6", cookieValue := some "cookie-6",
          oauthToken := some ⟨"at", some "rt", 100⟩, authType := .both,
          capabilities := ⟨true, false⟩, status := .valid, resetsAt := none,
          lastUsed := 7 }
        true none 0 none).2.authType = .cookieOnly ∧
     (runTestChecks
        { organizationUuid := "org-6", cookieValue := some "cookie-6",
          oauthToken := some ⟨"at", some "rt", 100⟩, authType := .both,
          capabilities := ⟨true, false⟩, status := .valid, resetsAt := none,
          lastUsed := 7 }
        true none 0 none).2.status = .valid ∧
     (runTestChecks
        { organizationUuid := "org-6", cookieValue := some "cookie-6",
          oauthToken := some ⟨"at", some "rt", 100⟩, authType := .both,
          capabilities := ⟨true, false⟩, status := .valid, resetsAt := none,
          lastUsed := 7 }
        true none 0 none).2.oauthToken = none) :=
  ⟨rfl,
   (test_account_dual_auth_downgrade
      { organizationUuid := "org-6", cookieValue := some "cookie-6",
        oauthToken := some ⟨"at", some "rt", 100⟩, authType := .both,
        capabilities := ⟨true, false⟩, status := .valid, resetsAt := none,
        lastUsed := 7 }
      "cookie-6" ⟨"at", some "rt", 100⟩ 0 none (some ⟨"at2", some "rt2", 900⟩)
      rfl rfl rfl rfl).1 (Or.inr rfl),
   ⟨((test_account_dual_auth_downgrade
      { organizationUuid := "org-6", cookieValue := some "cookie-6",
        oauthToken := some ⟨"at", some "rt", 100⟩, authType := .both,
        capabilities := ⟨true, false⟩, status := .valid, resetsAt := none,
        lastUsed := 7 }
      "cookie-6" ⟨"at", some "rt", 100⟩ 0 none none
      rfl rfl rfl rfl).2 (by decide)).1,
    ((test_account_dual_auth_downgrade
      { organizationUuid := "org-6", cookieValue := some "cookie-6",
        oauthToken := some ⟨"at", some "rt", 100⟩, authType := .both,
        capabilities := ⟨true, false⟩, status := .valid, resetsAt := none,
        lastUsed := 7 }
      "cookie-6" ⟨"at", some "rt", 100⟩ 0 none none
      rfl rfl rfl rfl).2 (by decide)).2.1,
    ((test_account_dual_auth_downgrade
      { organizationUuid := "org-6", cookieValue := some "cookie-6",
        oauthToken := some ⟨"at", some "rt", 100⟩, authType := .both,
        capabilities := ⟨true, false⟩, status := .valid, resetsAt := none,
        lastUsed := 7 }
      "cookie-6" ⟨"at", some "rt", 100⟩ 0 none none
      rfl rfl rfl rfl).2 (by decide)).2.2.1⟩⟩


/- ===================================================================
   Claim theorems: downgrade vs. cookie index (C10)
   =================================================================== -/

theorem find_setAccount (l : List Account) (u : String) (a a' : Account)
    (hfind : l.find? (fun b => b.organizationUuid == u) = some a)
    (hu : a'.organizationUuid = a.organizationUuid) :
    (l.map (fun b => if b.organizationUuid == u then a' else b)).find?
      (fun b => b.organizationUuid == u) = some a' := by
  induction l with
  | nil => simp at hfind
  | cons x xs ih =>
    cases hx : x.organizationUuid == u with
    | true =>
      have hxa : x = a := by
        simp only [List.find?_cons, hx, Option.some.injEq] at hfind
        exact hfind
      have hau : (a'.organizationUuid == u) = true := by
        rw [hu, ← hxa]
        exact hx
      rw [List.map_cons, if_pos hx, List.find?_cons, hau]
    | false =>
      have hrest : xs.find? (fun b => b.organizationUuid == u) = some a := by
        simp only [List.find?_cons, hx] at hfind
        exact hfind
      have hx' : ¬((x.organizationUuid == u) = true) := by
        rw [hx]
        exact Bool.false_ne_true
      rw [List.map_cons, if_neg hx', List.find?_cons, hx]
      exact ih hrest

/-- C10: when `test_account` downgrades a `Both`-auth account to
`OAuthOnly`, the cleared cookie stays in `_cookie_to_uuid`; a later
`add_account` with that same cookie therefore takes the duplicate-cookie
branch and returns the downgraded account unchanged (its `cookieValue`
still `None`), with the manager state untouched — no new account and no
re-attached cookie. -/
theorem downgraded_cookie_stays_in_index (m : AccountManager) (uuid c : String)
    (a : Account) (tok : OAuthToken) (caps' : Option Capabilities) (now : Int)
    (refreshResult : Option OAuthToken)
    (hfind : m.findAccount uuid = some a) (hauth : a.authType = .both)
    (hc : a.cookieValue = some c) (ht : a.oauthToken = some tok)
    (hmap : alookup m.cookieToUuid c = some uuid)
    (hpass : 300 ≤ tok.expiresAt - now ∨ refreshResult.isSome = true) :
    (runTestChecks a false caps' now refreshResult).2.cookieValue = none ∧
    (runTestChecks a false caps' now refreshResult).2.authType = .oauthOnly ∧
    alookup ((m.test_account uuid false caps' now refreshResult).2).cookieToUuid c =
      some uuid ∧
    ((m.test_account uuid false caps' now refreshResult).2).findAccount uuid =
      some (runTestChecks a false caps' now refreshResult).2 ∧
    ∀ (oauthToken2 : Option OAuthToken) (orgUuid2 : Option String)
      (caps2 : Option Capabilities) (fetchedUuid2 : Option String)
      (fetchedCaps2 : Option Capabilities) (freshUuid2 : String) (now2 : Int),
      ((m.test_account uuid false caps' now refreshResult).2).add_account (some c)
        oauthToken2 orgUuid2 caps2 fetchedUuid2 fetchedCaps2 freshUuid2 now2 =
      .ok ((runTestChecks a false caps' now refreshResult).2,
           (m.test_account uuid false caps' now refreshResult).2) := by
  have hcsup : supportsCookieAuth a.authType = true := by rw [hauth]; rfl
  have hosup : supportsOAuth a.authType = true := by rw [hauth]; rfl
  have hcs : a.cookieValue.isSome = true := by rw [hc]; rfl
  have hcp := cookiePhase_fail a caps' ⟨true, none, none⟩ hcsup hcs
  have hop := oauthPhase_pass a now refreshResult tok ⟨false, some false, none⟩
    hosup ht hpass
  have hagg := aggregatePhase_cookie_fail_downgrade
    (oauthPhase a now refreshResult ⟨false, some false, none⟩).2
    (oauthPhase a now refreshResult ⟨false, some false, none⟩).1
    (by rw [hop.2.1, hauth]) (by rw [hop.1]) (by rw [hop.1]) (by rw [hop.1])
  have hrun : runTestChecks a false caps' now refreshResult =
      ({ (oauthPhase a now refreshResult ⟨false, some false, none⟩).1 with
         success := true },
       { (oauthPhase a now refreshResult ⟨false, some false, none⟩).2 with
         authType := .oauthOnly, cookieValue := none }) := by
    have h1 : runTestChecks a false caps' now refreshResult =
        aggregatePhase (oauthPhase a now refreshResult ⟨false, some false, none⟩).2
          (oauthPhase a now refreshResult ⟨false, some false, none⟩).1 := by
      simp only [runTestChecks, hcp]
    rw [h1, hagg]
  have horg : (runTestChecks a false caps' now refreshResult).2.organizationUuid =
      a.organizationUuid := by
    rw [hrun]
    exact hop.2.2.2.2.2
  have hta : (m.test_account uuid false caps' now refreshResult).2 =
      m.setAccount uuid (runTestChecks a false caps' now refreshResult).2 := by
    simp only [AccountManager.test_account, hfind]
  have hfindm : m.accounts.find? (fun b => b.organizationUuid == uuid) = some a := hfind
  have hfind' : (m.setAccount uuid
      (runTestChecks a false caps' now refreshResult).2).findAccount uuid =
      some (runTestChecks a false caps' now refreshResult).2 := by
    rw [AccountManager.findAccount, AccountManager.setAccount]
    exact find_setAccount m.accounts uuid a _ hfindm horg
  refine ⟨?_, ?_, ?_, ?_, ?_⟩
  · rw [hrun]
  · rw [hrun]
  · rw [hta]
    exact hmap
  · rw [hta]
    exact hfind'
  · intro oauthToken2 orgUuid2 caps2 fetchedUuid2 fetchedCaps2 freshUuid2 now2
    rw [hta]
    have hbind : (some c).bind (alookup (m.setAccount uuid
        (runTestChecks a false caps' now refreshResult).2).cookieToUuid) =
        some uuid := by
      show alookup m.cookieToUuid c = some uuid
      exact hmap
    cases oauthToken2 with
    | none =>
      simp only [AccountManager.add_account, hbind, hfind']
    | some t2 =>
      simp only [AccountManager.add_account, hbind, hfind']

/-- Concrete `Both`-auth account for the C10 witness. -/
def c10Account : Account :=
  { organizationUuid := "org-10", cookieValue := some "cookie-10",
    oauthToken := some ⟨"at", some "rt", 100000⟩, authType := .both,
    capabilities := ⟨false, false⟩, status := .valid, resetsAt := none, lastUsed := 3 }

/-- Concrete one-account manager for the C10 witness. -/
def c10Manager : AccountManager :=
  { accounts := [c10Account], cookieToUuid := [("cookie-10", "org-10")],
    sessionAccounts := [], accountSessions := [], maxSessionsPerAccount := 3 }

/-- C10 witness: after downgrading the only account, the old cookie still
resolves in the index and `add_account` with it returns the downgraded
account unchanged together with the unchanged manager. -/
theorem downgraded_cookie_stays_in_index_witness :
    (c10Manager.findAccount "org-10" = some c10Account ∧
     alookup c10Manager.cookieToUuid "cookie-10" = some "org-10") ∧
    alookup ((c10Manager.test_account "org-10" false none 0 none).2).cookieToUuid
      "cookie-10" = some "org-10" ∧
    ((c10Manager.test_account "org-10" false none 0 none).2).add_account
      (some "cookie-10") none none none none none "fresh" 0 =
      .ok ((runTestChecks c10Account false none 0 none).2,
           (c10Manager.test_account "org-10" false none 0 none).2) :=
  ⟨⟨rfl, rfl⟩,
   (downgraded_cookie_stays_in_index c10Manager "org-10" "cookie-10" c10Account
      ⟨"at", some "rt", 100000⟩ none 0 none rfl rfl rfl rfl rfl
      (Or.inl (by decide))).2.2.1,
   (downgraded_cookie_stays_in_index c10Manager "org-10" "cookie-10" c10Account
      ⟨"at", some "rt", 100000⟩ none 0 none rfl rfl rfl rfl rfl
      (Or.inl (by decide))).2.2.2.2 none none none none none "fresh" 0⟩


/- ===================================================================
   Claim theorems: session selection (C3)
   =================================================================== -/

/-- Invariant of the `get_account_for_session` scan after processing the
accounts in `l`: when no best account has been found all of `l` was
ineligible, and when `best_account` is set it is an eligible account of
`l` whose `(session count, last_used)` pair is lexicographically minimal
among all eligible accounts of `l`, with `min_sessions` and
`earliest_last_used` tracking the best account's data. -/
def SelInv (m : AccountManager) (isPro isMax : Option Bool) (l : List Account)
    (st : SelState) : Prop :=
  (st.best = none → st.minSessions = none ∧
    ∀ a ∈ l, m.eligibleForSession isPro isMax a = false) ∧
  (∀ a, st.best = some a →
    a ∈ l ∧ m.eligibleForSession isPro isMax a = true ∧
    st.minSessions = some (m.sessionCount a.organizationUuid) ∧
    st.earliest = some a.lastUsed ∧
    ∀ b ∈ l, m.eligibleForSession isPro isMax b = true →
      m.sessionCount a.organizationUuid < m.sessionCount b.organizationUuid ∨
      (m.sessionCount a.organizationUuid = m.sessionCount b.organizationUuid ∧
        a.lastUsed ≤ b.lastUsed))

theorem selInv_init (m : AccountManager) (isPro isMax : Option Bool) :
    SelInv m isPro isMax [] ⟨none, none, none⟩ := by
  constructor
  · intro _
    exact ⟨rfl, by simp⟩
  · intro a hb
    simp at hb

theorem selInv_step (m : AccountManager) (isPro isMax : Option Bool)
    (l : List Account) (st : SelState) (c : Account)
    (h : SelInv m isPro isMax l st) :
    SelInv m isPro isMax (l ++ [c]) (selStep m isPro isMax st c) := by
  rw [selStep]
  by_cases helig : m.eligibleForSession isPro isMax c = true
  case neg =>
    rw [if_neg helig]
    have hne : m.eligibleForSession isPro isMax c = false :=
      Bool.eq_false_iff.mpr helig
    constructor
    · intro hb
      obtain ⟨hmin, hall⟩ := h.1 hb
      refine ⟨hmin, ?_⟩
      intro a ha
      rcases List.mem_append.mp ha with hl | hc1
      · exact hall a hl
      · rw [List.mem_singleton.mp hc1]
        exact hne
    · intro a hb
      obtain ⟨hmem, helig', hmin, hearl, hall⟩ := h.2 a hb
      refine ⟨List.mem_append_left _ hmem, helig', hmin, hearl, ?_⟩
      intro b hbmem hbelig
      rcases List.mem_append.mp hbmem with hl | hc1
      · exact hall b hl hbelig
      · have hbc : b = c := List.mem_singleton.mp hc1
        subst hbc
        rw [hne] at hbelig
        exact absurd hbelig Bool.false_ne_true
  case pos =>
    rw [if_pos helig]
    by_cases hcond : (ltInf (m.sessionCount c.organizationUuid) st.minSessions ||
        (st.minSessions == some (m.sessionCount c.organizationUuid) &&
          (match st.earliest with
           | some e => decide (c.lastUsed < e)
           | none => false))) = true
    · rw [if_pos hcond]
      constructor
      · intro hb
        simp at hb
      · intro a hb
        have hac : c = a := by
          have hb' : some c = some a := hb
          exact Option.some_injective _ hb'
        subst hac
        refine ⟨List.mem_append_right _ (List.mem_singleton_self c), helig, rfl, rfl, ?_⟩
        intro b hbmem hbelig
        rcases List.mem_append.mp hbmem with hl | hc1
        · -- b was already scanned; compare through the previous best
          cases hbestPrev : st.best with
          | none =>
            obtain ⟨_, hall⟩ := h.1 hbestPrev
            rw [hall b hl] at hbelig
            exact absurd hbelig Bool.false_ne_true
          | some p =>
            obtain ⟨_, _, hminp, hearlp, hallp⟩ := h.2 p hbestPrev
            rw [hminp, hearlp] at hcond
            simp only [ltInf, Bool.or_eq_true, Bool.and_eq_true, decide_eq_true_eq,
              beq_iff_eq, Option.some.injEq] at hcond
            rcases hallp b hl hbelig with hlt | ⟨heq, hle⟩
            · rcases hcond with hclt | ⟨hceq, _⟩
              · left; omega
              · left; omega
            · rcases hcond with hclt | ⟨hceq, hllt⟩
              · left; omega
              · right
                constructor
                · omega
                · calc c.lastUsed ≤ p.lastUsed := le_of_lt hllt
                    _ ≤ b.lastUsed := hle
        · have hbc : b = c := List.mem_singleton.mp hc1
          subst hbc
          right
          exact ⟨rfl, le_refl _⟩
    · rw [if_neg hcond]
      constructor
      · intro hb
        obtain ⟨hmin, _⟩ := h.1 hb
        exfalso
        apply hcond
        rw [hmin]
        simp [ltInf]
      · intro a hb
        obtain ⟨hmem, helig', hmin, hearl, hall⟩ := h.2 a hb
        refine ⟨List.mem_append_left _ hmem, helig', hmin, hearl, ?_⟩
        intro b hbmem hbelig
        rcases List.mem_append.mp hbmem with hl | hc1
        · exact hall b hl hbelig
        · have hbc : b = c := List.mem_singleton.mp hc1
          subst hbc
          rw [hmin, hearl] at hcond
          simp only [ltInf, Bool.or_eq_true, Bool.and_eq_true, decide_eq_true_eq,
            beq_iff_eq, Option.some.injEq, not_or, not_and, not_lt] at hcond
          obtain ⟨hge, himp⟩ := hcond
          by_cases hceq : m.sessionCount a.organizationUuid =
              m.sessionCount b.organizationUuid
          · right
            exact ⟨hceq, himp hceq⟩
          · left
            omega

theorem selInv_foldl (m : AccountManager) (isPro isMax : Option Bool) :
    ∀ (l processed : List Account) (st : SelState),
      SelInv m isPro isMax processed st →
      SelInv m isPro isMax (processed ++ l) (l.foldl (selStep m isPro isMax) st) := by
  intro l
  induction l with
  | nil =>
    intro processed st h
    simpa using h
  | cons c rest ih =>
    intro processed st h
    have h1 := selInv_step m isPro isMax processed st c h
    have h2 := ih (processed ++ [c]) (selStep m isPro isMax st c) h1
    rw [List.foldl_cons]
    have hsplit : processed ++ c :: rest = (processed ++ [c]) ++ rest := by simp
    rw [hsplit]
    exact h2

/-- C3: for a session with no live `Valid` binding, `get_account_for_session`
lazily evicts any stale binding and then considers exactly the `Valid`,
cookie-capable, filter-matching accounts below the session cap (the
`eligibleForSession` predicate): it raises `NoAccountsAvailableError`
precisely when no such candidate exists, and otherwise returns a candidate
with the fewest current sessions, ties broken towards the earliest
`lastUsed`, binding it to the session. -/
theorem select_for_session_least_loaded (m : AccountManager) (sid : String)
    (isPro isMax : Option Bool) (hsticky : m.stickyAccount sid = none) :
    (m.get_account_for_session sid isPro isMax = .error () ↔
      ∀ a ∈ (m.lazyEvict sid).accounts,
        (m.lazyEvict sid).eligibleForSession isPro isMax a = false) ∧
    (∀ a m', m.get_account_for_session sid isPro isMax = .ok (a, m') →
      a ∈ (m.lazyEvict sid).accounts ∧
      (m.lazyEvict sid).eligibleForSession isPro isMax a = true ∧
      m' = (m.lazyEvict sid).bindSession sid a.organizationUuid ∧
      ∀ b ∈ (m.lazyEvict sid).accounts,
        (m.lazyEvict sid).eligibleForSession isPro isMax b = true →
        (m.lazyEvict sid).sessionCount a.organizationUuid <
          (m.lazyEvict sid).sessionCount b.organizationUuid ∨
        ((m.lazyEvict sid).sessionCount a.organizationUuid =
          (m.lazyEvict sid).sessionCount b.organizationUuid ∧
          a.lastUsed ≤ b.lastUsed)) := by
  have hget : m.get_account_for_session sid isPro isMax =
      (m.lazyEvict sid).freshSelect sid isPro isMax := by
    rw [AccountManager.get_account_for_session, hsticky]
  have hinv := selInv_foldl (m.lazyEvict sid) isPro isMax
    (m.lazyEvict sid).accounts [] ⟨none, none, none⟩
    (selInv_init (m.lazyEvict sid) isPro isMax)
  rw [List.nil_append] at hinv
  rw [hget, AccountManager.freshSelect]
  cases hbest : ((m.lazyEvict sid).accounts.foldl
      (selStep (m.lazyEvict sid) isPro isMax) ⟨none, none, none⟩).best with
  | none =>
    constructor
    · constructor
      · intro _
        exact (hinv.1 hbest).2
      · intro _
        rfl
    · intro a m' hok
      exact absurd hok (by simp)
  | some a0 =>
    obtain ⟨hmem, helig, _, _, hall⟩ := hinv.2 a0 hbest
    constructor
    · constructor
      · intro habs
        exact absurd habs (by simp)
      · intro hall0
        rw [hall0 a0 hmem] at helig
        exact absurd helig Bool.false_ne_true
    · intro a m' hok
      have hp : (a0, (m.lazyEvict sid).bindSession sid a0.organizationUuid) =
          (a, m') := by
        injection hok
      have ha : a0 = a := congrArg Prod.fst hp
      have hm' : (m.lazyEvict sid).bindSession sid a0.organizationUuid = m' :=
        congrArg Prod.snd hp
      subst ha
      exact ⟨hmem, helig, hm'.symm, hall⟩

/-- Concrete `Valid` cookie account with one live session, for the C3 and
C4 witnesses. -/
def c3AccountA : Account :=
  { organizationUuid := "org-a", cookieValue := some "ca", oauthToken := none,
    authType := .cookieOnly, capabilities := ⟨false, false⟩, status := .valid,
    resetsAt := none, lastUsed := 10 }

/-- Concrete `Valid` cookie account with no sessions, for the C3 witness. -/
def c3AccountB : Account :=
  { organizationUuid := "org-b", cookieValue := some "cb", oauthToken := none,
    authType := .cookieOnly, capabilities := ⟨false, false⟩, status := .valid,
    resetsAt := none, lastUsed := 5 }

/-- Concrete two-account manager for the C3 witness: `org-a` already serves
one session, `org-b` none. -/
def c3Manager : AccountManager :=
  { accounts := [c3AccountA, c3AccountB],
    cookieToUuid := [("ca", "org-a"), ("cb", "org-b")],
    sessionAccounts := [("s9", "org-a")],
    accountSessions := [("org-a", ["s9"])],
    maxSessionsPerAccount := 3 }

/-- C3 witness: for an unbound session the scan picks `org-b` (0 sessions
beats 1), and the returned account is an eligible, least-loaded one. -/
theorem select_for_session_least_loaded_witness :
    c3Manager.stickyAccount "s1" = none ∧
    c3AccountB ∈ (c3Manager.lazyEvict "s1").accounts ∧
    (c3Manager.lazyEvict "s1").eligibleForSession none none c3AccountB = true :=
  ⟨rfl,
   ((select_for_session_least_loaded c3Manager "s1" none none rfl).2 c3AccountB
      ((c3Manager.lazyEvict "s1").bindSession "s1" c3AccountB.organizationUuid)
      rfl).1,
   ((select_for_session_least_loaded c3Manager "s1" none none rfl).2 c3AccountB
      ((c3Manager.lazyEvict "s1").bindSession "s1" c3AccountB.organizationUuid)
      rfl).2.1⟩


/-- Concrete `Both`-auth `Valid` account with `lastUsed = 100`, for the C4
counterexample and witness. -/
def accountC4 : Account :=
  { organizationUuid := "org-4", cookieValue := some "cookie-4",
    oauthToken := some ⟨"at", some "rt", 100000⟩, authType := .both,
    capabilities := ⟨false, false⟩, status := .valid, resetsAt := none,
    lastUsed := 100 }

/-- Manager whose session `s1` is stickily bound to `accountC4`. -/
def accountManagerC4Sticky : AccountManager :=
  { accounts := [accountC4], cookieToUuid := [("cookie-4", "org-4")],
    sessionAccounts := [("s1", "org-4")], accountSessions := [("org-4", ["s1"])],
    maxSessionsPerAccount := 3 }

/-- Manager with no bindings, for the fresh-path and OAuth-path C4 cases. -/
def accountManagerC4Fresh : AccountManager :=
  { accounts := [accountC4], cookieToUuid := [("cookie-4", "org-4")],
    sessionAccounts := [], accountSessions := [], maxSessionsPerAccount := 3 }

/- ===================================================================
   Claim theorems: lastUsed on selection (C4)
   =================================================================== -/

theorem stickyAccount_mem (m : AccountManager) (sid : String) (b : Account)
    (h : m.stickyAccount sid = some b) : b ∈ m.accounts := by
  rw [AccountManager.stickyAccount] at h
  split at h
  next uuid hlk =>
    split at h
    next x hf =>
      split at h
      next hvalid =>
        have hxb : x = b := Option.some_injective _ h
        subst hxb
        rw [AccountManager.findAccount] at hf
        exact List.mem_of_find?_eq_some hf
      next hnv => simp at h
    next hf => simp at h
  next hlk => simp at h

theorem lazyEvict_accounts (m : AccountManager) (sid : String) :
    (m.lazyEvict sid).accounts = m.accounts := by
  rw [AccountManager.lazyEvict]
  split
  · split
    · split
      · rfl
      · rfl
    · rfl
  · rfl

theorem oauthSel_mem (isPro isMax : Option Bool) :
    ∀ (l : List Account) (st : Option Account) (a : Account),
      l.foldl (oauthSelStep isPro isMax) st = some a →
      a ∈ l ∨ st = some a := by
  intro l
  induction l with
  | nil =>
    intro st a h
    right
    exact h
  | cons x xs ih =>
    intro st a h
    rw [List.foldl_cons] at h
    rcases ih (oauthSelStep isPro isMax st x) a h with hmem | hst
    · left
      exact List.mem_cons_of_mem x hmem
    · rw [oauthSelStep.eq_def] at hst
      split at hst
      · split at hst
        next =>
          left
          have hxa : x = a := Option.some_injective _ hst
          subst hxa
          exact List.mem_cons_self x xs
        next b =>
          split at hst
          · left
            have hxa : x = a := Option.some_injective _ hst
            subst hxa
            exact List.mem_cons_self x xs
          · right
            exact hst
      · right
        exact hst

/-- C4 counterexample: at these concrete states every selection path
succeeds yet returns the stored account with its old `lastUsed` (100)
and leaves the account data untouched — the sticky path and
`get_account_for_oauth` return the manager/account completely unchanged,
and the fresh-binding path changes only the affinity tables. No selection
path writes `lastUsed`, contradicting the claim that every successful
selection bumps it. -/
theorem selection_never_updates_last_used_cex :
    accountManagerC4Sticky.get_account_for_session "s1" none none =
      .ok (accountC4, accountManagerC4Sticky) ∧
    accountC4.lastUsed = 100 ∧
    accountManagerC4Fresh.get_account_for_session "s2" none none =
      .ok (accountC4, accountManagerC4Fresh.bindSession "s2" "org-4") ∧
    (accountManagerC4Fresh.bindSession "s2" "org-4").accounts = [accountC4] ∧
    accountManagerC4Fresh.get_account_for_oauth none none = .ok accountC4 :=
  ⟨rfl, rfl, rfl, rfl, rfl⟩

/-- C4 amended: no selection path updates any account field — in
particular `lastUsed` keeps its prior value. A successful
`get_account_for_session` returns a stored account as-is and a manager
whose account list is exactly the input's (only the affinity tables may
change), and `get_account_for_oauth` returns a stored account as-is with
no state change at all. -/
theorem selection_leaves_accounts_unchanged (m : AccountManager) (sid : String)
    (isPro isMax : Option Bool) :
    (∀ a m', m.get_account_for_session sid isPro isMax = .ok (a, m') →
      m'.accounts = m.accounts ∧ a ∈ m.accounts) ∧
    (∀ a, m.get_account_for_oauth isPro isMax = .ok a → a ∈ m.accounts) := by
  constructor
  · intro a m' hok
    rw [AccountManager.get_account_for_session] at hok
    cases hstk : m.stickyAccount sid with
    | some b =>
      rw [hstk] at hok
      have hp : (b, m) = (a, m') := by injection hok
      have hab : b = a := congrArg Prod.fst hp
      have hmm : m = m' := congrArg Prod.snd hp
      subst hab
      constructor
      · rw [← hmm]
      · exact stickyAccount_mem m sid b hstk
    | none =>
      rw [hstk, AccountManager.freshSelect] at hok
      have hinv := selInv_foldl (m.lazyEvict sid) isPro isMax
        (m.lazyEvict sid).accounts [] ⟨none, none, none⟩
        (selInv_init (m.lazyEvict sid) isPro isMax)
      rw [List.nil_append] at hinv
      cases hbest : ((m.lazyEvict sid).accounts.foldl
          (selStep (m.lazyEvict sid) isPro isMax) ⟨none, none, none⟩).best with
      | none =>
        rw [hbest] at hok
        exact absurd hok (by simp)
      | some a0 =>
        rw [hbest] at hok
        have hp : (a0, (m.lazyEvict sid).bindSession sid a0.organizationUuid) =
            (a, m') := by
          injection hok
        have ha : a0 = a := congrArg Prod.fst hp
        have hm' : (m.lazyEvict sid).bindSession sid a0.organizationUuid = m' :=
          congrArg Prod.snd hp
        subst ha
        constructor
        · rw [← hm']
          show (m.lazyEvict sid).accounts = m.accounts
          exact lazyEvict_accounts m sid
        · have := (hinv.2 a0 hbest).1
          rw [lazyEvict_accounts m sid] at this
          exact this
  · intro a hok
    rw [AccountManager.get_account_for_oauth] at hok
    cases hf : m.accounts.foldl (oauthSelStep isPro isMax) none with
    | none =>
      rw [hf] at hok
      exact absurd hok (by simp)
    | some b =>
      rw [hf] at hok
      have hab : b = a := by
        injection hok
      subst hab
      rcases oauthSel_mem isPro isMax m.accounts none b hf with hmem | habs
      · exact hmem
      · simp at habs

/-- C4 amended-claim witness: at the concrete sticky state the selection
succeeds and the account list is returned unchanged with the stored
account. -/
theorem selection_leaves_accounts_unchanged_witness :
    accountManagerC4Sticky.get_account_for_session "s1" none none =
      .ok (accountC4, accountManagerC4Sticky) ∧
    accountManagerC4Sticky.accounts = [accountC4] ∧
    accountC4 ∈ accountManagerC4Sticky.accounts ∧
    accountManagerC4Fresh.get_account_for_oauth none none = .ok accountC4 ∧
    accountC4 ∈ accountManagerC4Fresh.accounts :=
  ⟨rfl, rfl,
   ((selection_leaves_accounts_unchanged accountManagerC4Sticky "s1" none none).1
      accountC4 accountManagerC4Sticky rfl).2,
   rfl,
   (selection_leaves_accounts_unchanged accountManagerC4Fresh "s1" none none).2
      accountC4 rfl⟩

end MyClove
